import Mathlib

/-!
# Verification of the exchange-listing monitor (`main.py`)

A shallow embedding of the change-detection and persistence engine of the
monitor bot.  Python strings are Lean `String`s, but every string operation
the program uses (`str.replace`, `str.startswith`, `str.endswith`, string
comparison) is re-implemented here on the underlying character list with the
exact Python semantics, so that all definitions evaluate by `decide`.

The record file is modelled as a `FileState` (missing / unreadable / a list
of records).  Wall-clock timestamps (`datetime.now`) are passed in as
parameters.  HTTP responses are passed in as `Except`-valued parameters: an
`Except.error` input models a transport or parse failure of the
corresponding request (`requests.get(...).json()` raising, or a missing
mandatory field).
-/

/-! ## Python string primitives -/

/-- Python `str.startswith(pre)`. -/
def pyStartsWith (s pre : String) : Bool := pre.data.isPrefixOf s.data

/-- Python `str.endswith(suf)`. -/
def pyEndsWith (s suf : String) : Bool := suf.data.isSuffixOf s.data

/-- One left-to-right pass replacing every non-overlapping occurrence of
`pat` (non-empty) by `rep`; `fuel` bounds the recursion and is initialised
with the length of the subject string, which suffices because each step
consumes at least one character. -/
def replaceList (pat rep : List Char) : Nat → List Char → List Char
  | 0, s => s
  | _ + 1, [] => []
  | fuel + 1, c :: rest =>
    if pat.isPrefixOf (c :: rest)
    then rep ++ replaceList pat rep fuel ((c :: rest).drop pat.length)
    else c :: replaceList pat rep fuel rest

/-- Python `s.replace(pat, rep)`: replaces all non-overlapping occurrences,
scanning left to right.  (The program never calls it with an empty
pattern; that case is returned unchanged.) -/
def pyReplace (s pat rep : String) : String :=
  if pat.data.isEmpty then s else ⟨replaceList pat.data rep.data s.data.length s.data⟩

/-- Python string `<=` on character lists: lexicographic by code point. -/
def strLe : List Char → List Char → Bool
  | [], _ => true
  | _ :: _, [] => false
  | a :: as, b :: bs => if a.toNat = b.toNat then strLe as bs else decide (a.toNat < b.toNat)

/-- Python string `<=` (used by `sorted(..., key=lambda x: x["timestamp"])`). -/
def pyStrLe (s t : String) : Bool := strLe s.data t.data

/-! ## The symbol normalizer (`clean_symbol`, main.py lines 51-57)

The Python loop `for suffix in ["-USDT", "-SWAP", "USDT"]` is unrolled: each
iteration tests `endswith` on the *current* value and, on success, performs a
global `replace`. -/

def clean_symbol (symbol : String) : String :=
  let s1 := if pyStartsWith symbol "KRW-" then pyReplace symbol "KRW-" "" else symbol
  let s2 := if pyEndsWith s1 "-USDT" then pyReplace s1 "-USDT" "" else s1
  let s3 := if pyEndsWith s2 "-SWAP" then pyReplace s2 "-SWAP" "" else s2
  let s4 := if pyEndsWith s3 "USDT" then pyReplace s3 "USDT" "" else s3
  s4

/-! ## The snapshot store (main.py lines 21-49) -/

/-- One persisted observation: a JSON object
`{"source": ..., "symbol": ..., "timestamp": ...}`. -/
structure Record where
  source : String
  symbol : String
  timestamp : String
deriving DecidableEq, Repr

/-- The state of `records.json`: absent, present but unreadable (corrupt
JSON / IO error on read), or readable with the given record list. -/
inductive FileState where
  | missing : FileState
  | corrupt : FileState
  | good : List Record → FileState
deriving DecidableEq, Repr

/-- Python `load_records()`: `[]` when the file does not exist, `[]` when reading
raises (the `except` branch), otherwise the parsed list. -/
def load_records : FileState → List Record
  | .missing => []
  | .corrupt => []
  | .good rs => rs

/-- Python `save_records(records)`: rewrites the whole file with the given list.
(Write failures are caught and logged in the source; the model tracks the
successful write, the only path the verified claims depend on.) -/
def save_records (records : List Record) : FileState := .good records

/-- Python `append_record(source, symbol)`: full load-modify-save, stamping the
record with the current wall-clock time (`now`, a parameter here). -/
def append_record (st : FileState) (source symbol now : String) : FileState :=
  save_records (load_records st ++ [⟨source, symbol, now⟩])

/-- Python `get_last_symbols()`: the known `(source, symbol)` pairs of the store
(a Python set; modelled as a list, used only through membership). -/
def get_last_symbols (st : FileState) : List (String × String) :=
  (load_records st).map (fun r => (r.source, r.symbol))

/-! ## Source adapters (main.py lines 80-111)

Each adapter receives, as a parameter, the parsed JSON of its HTTP request,
or `Except.error ()` when the request or the parse raised.  `fetch_binance`,
`fetch_bybit` and `fetch_upbit` have no `try`/`except` in the source, so a
failure propagates out of them; only `fetch_okx` catches it. -/

/-- One entry of Binance `exchangeInfo`'s `symbols` array (the fields read). -/
structure BinanceInfo where
  symbol : String
  contractType : String
  quoteAsset : String
deriving DecidableEq, Repr

/-- One entry of Bybit `instruments-info`'s `result.list` array. -/
structure BybitInfo where
  symbol : String
deriving DecidableEq, Repr

/-- One entry of OKX `public/instruments`'s `data` array; `settleCcy` is
read with `dict.get` and may be absent. -/
structure OkxInfo where
  instId : String
  settleCcy : Option String
deriving DecidableEq, Repr

/-- One entry of the Upbit `market/all` array. -/
structure UpbitInfo where
  market : String
deriving DecidableEq, Repr

/-- Python `fetch_binance()`: no `try`, so a failure propagates to the caller. -/
def fetch_binance (resp : Except Unit (List BinanceInfo)) : Except Unit (List String) :=
  resp.map (fun data =>
    (data.filter (fun s => decide (s.contractType = "PERPETUAL") && decide (s.quoteAsset = "USDT"))).map
      (fun s => s.symbol))

/-- Python `fetch_bybit()`: no `try`, so a failure propagates to the caller. -/
def fetch_bybit (resp : Except Unit (List BybitInfo)) : Except Unit (List String) :=
  resp.map (fun data => (data.filter (fun s => pyEndsWith s.symbol "USDT")).map (fun s => s.symbol))

/-- Python `fetch_okx()`: the whole body is inside `try`/`except`, returning `[]`
on failure; on success each kept `instId` has every `"-SWAP"` occurrence
removed before being returned. -/
def fetch_okx (resp : Except Unit (List OkxInfo)) : List String :=
  match resp with
  | .error _ => []
  | .ok raw =>
      (raw.filter (fun s => decide (s.settleCcy = some "USDT"))).map
        (fun s => pyReplace s.instId "-SWAP" "")

/-- Python `fetch_upbit()`: no `try`, so a failure propagates to the caller. -/
def fetch_upbit (resp : Except Unit (List UpbitInfo)) : Except Unit (List String) :=
  resp.map (fun data => (data.filter (fun s => pyStartsWith s.market "KRW-")).map (fun s => s.market))

/-- The four parsed HTTP responses of one polling pass. -/
structure Responses where
  binance : Except Unit (List BinanceInfo)
  bybit : Except Unit (List BybitInfo)
  okx : Except Unit (List OkxInfo)
  upbit : Except Unit (List UpbitInfo)

/-- Building the `all_sources` dict (shared by `check_all` and
`initialize_record_file`): the four adapters are invoked in program order;
an exception in Binance, Bybit or Upbit propagates and aborts the caller. -/
def fetch_entries (r : Responses) : Except Unit (List (String × List String)) := do
  let b ← fetch_binance r.binance
  let y ← fetch_bybit r.bybit
  let o := fetch_okx r.okx
  let u ← fetch_upbit r.upbit
  pure [("Binance", b), ("Bybit", y), ("OKX", o), ("Upbit", u)]

/-! ## Diff engine (`check_all`, main.py lines 113-134) -/

/-- The inner loop of `check_all` for one source: `last` is the
`last_symbols` set computed once before the loop (and never updated inside
it); each symbol whose pair is not in `last` is appended to the store and
recorded in the notified batch. -/
def process_symbols (last : List (String × String)) (source now : String) :
    List String → FileState → List (String × String) → FileState × List (String × String)
  | [], st, notified => (st, notified)
  | sym :: rest, st, notified =>
    if (source, sym) ∈ last then process_symbols last source now rest st notified
    else process_symbols last source now rest (append_record st source sym now)
      (notified ++ [(source, sym)])

/-- The outer loop of `check_all` over the `all_sources` items. -/
def process_sources (last : List (String × String)) (now : String) :
    List (String × List String) → FileState → List (String × String) →
      FileState × List (String × String)
  | [], st, notified => (st, notified)
  | (source, syms) :: rest, st, notified =>
    let (st', notified') := process_symbols last source now syms st notified
    process_sources last now rest st' notified'

/-- Python `check_all()`: fetch all four sources (a raising adapter aborts the
cycle before any diffing), read the known-pairs set once, then walk the
snapshot.  The result is the new file state and the batch of `(source,
symbol)` pairs that were appended and notified, in order; the code emits one
notification line per such pair. -/
def check_all (r : Responses) (st : FileState) (now : String) :
    Except Unit (FileState × List (String × String)) := do
  let entries ← fetch_entries r
  pure (process_sources (get_last_symbols st) now entries st [])

/-- The notification line pushed for a newly seen pair
(`f"📢【{source}】新上：{clean_symbol(symbol)}"`). -/
def notify_line (p : String × String) : String :=
  "📢【" ++ p.1 ++ "】新上：" ++ clean_symbol p.2

/-- One scheduler invocation of `check_all`: an uncaught exception ends the
job run, leaving the file as it was and sending nothing. -/
def runCycle (r : Responses) (now : String) (st : FileState) :
    FileState × List (String × String) :=
  match check_all r st now with
  | .error _ => (st, [])
  | .ok out => out

/-- A sequence of diff cycles; returns the final file state and each
cycle's notified batch. -/
def runCycles : List (Responses × String) → FileState → FileState × List (List (String × String))
  | [], st => (st, [])
  | (r, now) :: rest, st =>
    let (st', n) := runCycle r now st
    let (stF, ns) := runCycles rest st'
    (stF, n :: ns)

/-! ## Bootstrap (`initialize_record_file`, main.py lines 59-78) -/

/-- Python `initialize_record_file()`: a no-op when the record file exists (even
when unreadable); otherwise fetches all sources and saves one record per
fetched symbol, stamped with one shared wall-clock time.  The second
component is the list of notified pairs: the function never calls
`notify`, so it is `[]` on every path. -/
def initialize_record_file (r : Responses) (st : FileState) (now : String) :
    Except Unit (FileState × List (String × String)) :=
  match st with
  | .missing =>
      (fetch_entries r).map (fun entries =>
        (save_records (entries.flatMap (fun e => e.2.map (fun sym => ⟨e.1, sym, now⟩))), []))
  | st => pure (st, [])

/-! ## Query views (main.py lines 142-162 and 182-186) -/

/-- The fixed source order of the `/check` view. -/
def main_sources : List String := ["Binance", "Bybit", "OKX", "Upbit"]

/-- Python `sorted(records, key=lambda x: x["timestamp"], reverse=True)`.
Python's sort is stable; a stable sort on a total preorder key is uniquely
determined by its input, so the structural insertion sort below (which
keeps the earlier element first on equal timestamps, exactly as
`reverse=True` does) computes the same list as the source's Timsort. -/
def sortedRecs (records : List Record) : List Record :=
  List.insertionSort (fun a b => pyStrLe b.timestamp a.timestamp = true) records

/-- Python `grouped[source][:10]`: grouping a stably-sorted list with a dict of
lists and reading one key is filtering the sorted list on that key. -/
def group_for (records : List Record) (s : String) : List Record :=
  ((sortedRecs records).filter (fun r => decide (r.source = s))).take 10

/-- The section header `f"📊 【{source}】最新上幣："`. -/
def header_line (s : String) : String := "📊 【" ++ s ++ "】最新上幣："

/-- One rendered entry `f"- {time_str} - {clean_symbol(r['symbol'])}"`;
`fmt` is the timestamp re-formatting
`strptime(...).astimezone(TW).strftime("%m-%d %H:%M")`, passed as a
parameter (it is pure string-to-string re-formatting by the datetime
library and no verified claim depends on its output). -/
def entry_line (fmt : String → String) (r : Record) : String :=
  "- " ++ fmt r.timestamp ++ " - " ++ clean_symbol r.symbol

/-- The lines contributed by one source in the `/check` loop: nothing when
its group is empty, otherwise a header, the rendered entries, and the
trailing `""` separator. -/
def section_for (fmt : String → String) (records : List Record) (s : String) : List String :=
  let recent := group_for records s
  if recent.isEmpty then []
  else (header_line s :: recent.map (entry_line fmt)) ++ [""]

/-- The full `output` list built by `check_command`. -/
def check_output (fmt : String → String) (records : List Record) : List String :=
  (main_sources.map (section_for fmt records)).flatten

/-- The `/check` placeholder `"📭 無新增紀錄"`. -/
def no_data_text : String := "📭 無新增紀錄"

/-- Python `line.strip()` falsiness: every character is whitespace. -/
def is_blank (s : String) : Bool := s.data.all (fun c => c.isWhitespace)

/-- The final `/check` reply text:
`"\n".join([line for line in output if line.strip()])`, replaced by the
placeholder when empty. -/
def check_text (fmt : String → String) (records : List Record) : String :=
  let t := String.intercalate "\n" ((check_output fmt records).filter (fun l => !is_blank l))
  if t = "" then no_data_text else t

/-- One line of `/showrecord`: `f"{r['timestamp']} - {r['source']} - {r['symbol']}"`. -/
def record_line (r : Record) : String :=
  r.timestamp ++ " - " ++ r.source ++ " - " ++ r.symbol

/-- The `/showrecord` body: `records[-5:]` rendered in list order. -/
def show_record_lines (records : List Record) : List String :=
  (records.drop (records.length - 5)).map record_line

/-- Modelled from the spec (§4.5 `recentLog(n)`): "return the `n`
most-recently-appended Observations, ordered newest-first" — rendered with
the code's own line format so that only the selection and ordering are
compared. -/
def recentLog_spec (records : List Record) (n : Nat) : List String :=
  (records.reverse.take n).map record_line

/-- Modelled from the spec (§4.1, rule (b)): strip exactly the *first
matching* suffix of the ordered list, from the end of the string only;
an input matching no rule passes through unchanged. -/
def strip_one_suffix_spec (symbol : String) : String :=
  if pyStartsWith symbol "KRW-" then ⟨symbol.data.drop 4⟩
  else if pyEndsWith symbol "-USDT" then ⟨symbol.data.take (symbol.data.length - 5)⟩
  else if pyEndsWith symbol "-SWAP" then ⟨symbol.data.take (symbol.data.length - 5)⟩
  else if pyEndsWith symbol "USDT" then ⟨symbol.data.take (symbol.data.length - 4)⟩
  else symbol

/-! ## Closed form of one diff cycle -/

/-- The pairs of a snapshot (in iteration order) whose `(source, symbol)`
pair is not in the known-pairs set `last`. -/
def new_pairs (last : List (String × String)) (entries : List (String × List String)) :
    List (String × String) :=
  entries.flatMap (fun e =>
    (e.2.filter (fun sym => !decide ((e.1, sym) ∈ last))).map (fun sym => (e.1, sym)))

/-- The records appended for a batch of new pairs at wall-clock time `now`. -/
def recs_of (now : String) (ps : List (String × String)) : List Record :=
  ps.map (fun p => ⟨p.1, p.2, now⟩)

theorem process_symbols_good (last : List (String × String)) (source now : String) :
    ∀ (syms : List String) (rs : List Record) (notified : List (String × String)),
      process_symbols last source now syms (.good rs) notified =
        (.good (rs ++ recs_of now ((syms.filter
            (fun sym => !decide ((source, sym) ∈ last))).map (fun sym => (source, sym)))),
         notified ++ (syms.filter
            (fun sym => !decide ((source, sym) ∈ last))).map (fun sym => (source, sym)))
  | [], rs, notified => by simp [process_symbols, recs_of]
  | sym :: rest, rs, notified => by
    by_cases h : (source, sym) ∈ last
    · simp [process_symbols, h, process_symbols_good last source now rest rs notified]
    · have step : process_symbols last source now (sym :: rest) (.good rs) notified
          = process_symbols last source now rest (.good (rs ++ [⟨source, sym, now⟩]))
              (notified ++ [(source, sym)]) := by
        simp [process_symbols, h, append_record, load_records, save_records]
      rw [step, process_symbols_good last source now rest]
      simp [recs_of, h, List.filter_cons]

theorem process_sources_good (now : String) :
    ∀ (entries : List (String × List String)) (last : List (String × String))
      (rs : List Record) (notified : List (String × String)),
      process_sources last now entries (.good rs) notified =
        (.good (rs ++ recs_of now (new_pairs last entries)), notified ++ new_pairs last entries)
  | [], last, rs, notified => by simp [process_sources, new_pairs, recs_of]
  | (source, syms) :: rest, last, rs, notified => by
    simp only [process_sources, process_symbols_good]
    rw [process_sources_good now rest]
    simp [new_pairs, recs_of]

theorem check_all_good (r : Responses) (rs : List Record) (now : String)
    (es : List (String × List String)) (h : fetch_entries r = .ok es) :
    check_all r (.good rs) now =
      .ok (.good (rs ++ recs_of now (new_pairs (get_last_symbols (.good rs)) es)),
           new_pairs (get_last_symbols (.good rs)) es) := by
  simp only [check_all, h, bind, Except.bind]
  rw [process_sources_good]
  rfl

/-- The known pairs of the appended records are exactly the new pairs. -/
theorem get_last_symbols_recs_of (rs : List Record) (now : String)
    (ps : List (String × String)) :
    get_last_symbols (.good (rs ++ recs_of now ps)) = get_last_symbols (.good rs) ++ ps := by
  simp only [get_last_symbols, load_records, recs_of, List.map_append, List.map_map]
  congr 1
  exact List.map_id'' (fun p => rfl) ps

theorem new_pairs_not_mem_last (last : List (String × String)) :
    ∀ (entries : List (String × List String)) (p : String × String),
      p ∈ new_pairs last entries → p ∉ last := by
  intro entries p hp
  simp only [new_pairs, List.mem_flatMap, List.mem_map, List.mem_filter,
    Bool.not_eq_true', decide_eq_false_iff_not] at hp
  obtain ⟨e, _, sym, ⟨_, hnot⟩, rfl⟩ := hp
  exact hnot

theorem new_pairs_source (last : List (String × String)) :
    ∀ (entries : List (String × List String)) (p : String × String),
      p ∈ new_pairs last entries → p.1 ∈ entries.map Prod.fst ∧ ∃ e ∈ entries, p.1 = e.1 ∧ p.2 ∈ e.2 := by
  intro entries p hp
  simp only [new_pairs, List.mem_flatMap, List.mem_map, List.mem_filter,
    Bool.not_eq_true', decide_eq_false_iff_not] at hp
  obtain ⟨e, he, sym, ⟨hsym, _⟩, rfl⟩ := hp
  exact ⟨List.mem_map.mpr ⟨e, he, rfl⟩, e, he, rfl, hsym⟩

theorem new_pairs_nodup (last : List (String × String)) :
    ∀ (entries : List (String × List String)),
      (entries.map Prod.fst).Nodup → (∀ e ∈ entries, e.2.Nodup) →
      (new_pairs last entries).Nodup
  | [], _, _ => by simp [new_pairs]
  | e :: rest, hsrc, hdup => by
    have hcons : (e.1 :: rest.map Prod.fst).Nodup := hsrc
    simp only [new_pairs, List.flatMap_cons] at *
    rw [List.nodup_append]
    refine ⟨?_, ?_, ?_⟩
    · exact ((hdup e (by simp)).filter _).map
        (fun a b h => by simpa using congrArg Prod.snd h)
    · exact new_pairs_nodup last rest hcons.of_cons (fun x hx => hdup x (by simp [hx]))
    · intro p hp hq
      have h1 : p.1 = e.1 := by
        simp only [List.mem_map, List.mem_filter] at hp
        obtain ⟨sym, _, rfl⟩ := hp
        rfl
      have h2 := (new_pairs_source last rest p hq).1
      exact (List.nodup_cons.mp hcons).1 (h1 ▸ h2)

/-- On a readable store, a cycle whose fetches all succeed appends exactly
the records of the new pairs and notifies exactly those pairs. -/
theorem runCycle_ok (r : Responses) (now : String) (rs : List Record)
    (es : List (String × List String)) (h : fetch_entries r = .ok es) :
    runCycle r now (.good rs) =
      (.good (rs ++ recs_of now (new_pairs (get_last_symbols (.good rs)) es)),
       new_pairs (get_last_symbols (.good rs)) es) := by
  simp [runCycle, check_all_good r rs now es h]

/-- A cycle whose fetch phase raises leaves the store untouched and
notifies nothing. -/
theorem runCycle_err (r : Responses) (now : String) (st : FileState) (u : Unit)
    (h : fetch_entries r = .error u) :
    runCycle r now st = (st, []) := by
  simp [runCycle, check_all, h, bind, Except.bind]

/-- After any cycle, a readable store still holds its old records as a
prefix, followed by one record per notified pair. -/
theorem runCycle_state (r : Responses) (now : String) (rs : List Record) :
    (runCycle r now (.good rs)).1 =
      .good (rs ++ recs_of now (runCycle r now (.good rs)).2) := by
  cases h : fetch_entries r with
  | error u => simp [runCycle_err r now _ u h, recs_of]
  | ok es => simp [runCycle_ok r now rs es h]

/-- Every pair notified by a cycle was absent from the known-pairs set
read at the start of the cycle. -/
theorem runCycle_notified_new (r : Responses) (now : String) (rs : List Record) :
    ∀ p ∈ (runCycle r now (.good rs)).2, p ∉ get_last_symbols (.good rs) := by
  cases h : fetch_entries r with
  | error u => simp [runCycle_err r now _ u h]
  | ok es =>
    rw [runCycle_ok r now rs es h]
    exact fun p hp => new_pairs_not_mem_last _ es p hp

/-- The successful value of a fetch, `[]` when it raised (used only to
state hypotheses and conclusions about adapter outputs). -/
def okd (e : Except Unit (List String)) : List String := e.toOption.getD []

/-- The property that no adapter's result contains the same raw symbol twice in one
polling pass. -/
def snapshot_dup_free (r : Responses) : Prop :=
  (okd (fetch_binance r.binance)).Nodup ∧ (okd (fetch_bybit r.bybit)).Nodup ∧
  (fetch_okx r.okx).Nodup ∧ (okd (fetch_upbit r.upbit)).Nodup

instance (r : Responses) : Decidable (snapshot_dup_free r) := by
  unfold snapshot_dup_free; infer_instance

/-- Unfolding a successful fetch phase: the snapshot is the four adapter
results keyed by the four source names, in program order. -/
theorem fetch_entries_ok (r : Responses) (es : List (String × List String))
    (h : fetch_entries r = .ok es) :
    ∃ b y u, fetch_binance r.binance = .ok b ∧ fetch_bybit r.bybit = .ok y ∧
      fetch_upbit r.upbit = .ok u ∧
      es = [("Binance", b), ("Bybit", y), ("OKX", fetch_okx r.okx), ("Upbit", u)] := by
  cases hb : fetch_binance r.binance with
  | error u => simp [fetch_entries, hb, bind, Except.bind] at h
  | ok b =>
    cases hy : fetch_bybit r.bybit with
    | error u => simp [fetch_entries, hb, hy, bind, Except.bind] at h
    | ok y =>
      cases hu : fetch_upbit r.upbit with
      | error u => simp [fetch_entries, hb, hy, hu, bind, Except.bind] at h
      | ok u =>
        refine ⟨b, y, u, rfl, rfl, rfl, ?_⟩
        simp only [fetch_entries, hb, hy, hu, bind, Except.bind, pure, Except.pure] at h
        exact (Except.ok.inj h).symm

/-- When no adapter result has internal duplicates, the batch of pairs
notified by one cycle has no duplicates either. -/
theorem runCycle_notified_nodup (r : Responses) (now : String) (rs : List Record)
    (hs : snapshot_dup_free r) : (runCycle r now (.good rs)).2.Nodup := by
  cases h : fetch_entries r with
  | error u => simp [runCycle_err r now _ u h]
  | ok es =>
    rw [runCycle_ok r now rs es h]
    obtain ⟨b, y, u, hb, hy, hu, rfl⟩ := fetch_entries_ok r es h
    obtain ⟨h1, h2, h3, h4⟩ := hs
    rw [okd, hb] at h1
    rw [okd, hy] at h2
    rw [okd, hu] at h4
    refine new_pairs_nodup _ _ ?_ ?_
    · show (["Binance", "Bybit", "OKX", "Upbit"] : List String).Nodup
      decide
    intro e he
    simp only [List.mem_cons, List.not_mem_nil, or_false] at he
    rcases he with rfl | rfl | rfl | rfl
    · exact h1
    · exact h2
    · exact h3
    · exact h4

/-- The workhorse for the no-duplicate-notification claim: starting from a
readable store whose known pairs are distinct, and with duplicate-free
adapter results on every cycle, running any sequence of cycles (i) keeps
the store readable with distinct known pairs, (ii) notifies any pair on at
most one cycle and at most once within a cycle, and (iii) never notifies a
pair that was already known at the start. -/
theorem runCycles_invariant :
    ∀ (inputs : List (Responses × String)) (rs : List Record),
      (∀ inp ∈ inputs, snapshot_dup_free inp.1) →
      (get_last_symbols (.good rs)).Nodup →
      (∃ rsF, (runCycles inputs (.good rs)).1 = .good rsF ∧
        (get_last_symbols (.good rsF)).Nodup) ∧
      ((runCycles inputs (.good rs)).2.Pairwise (fun n₁ n₂ => ∀ p ∈ n₁, p ∉ n₂)) ∧
      (∀ n ∈ (runCycles inputs (.good rs)).2, n.Nodup) ∧
      (∀ p ∈ get_last_symbols (.good rs), ∀ n ∈ (runCycles inputs (.good rs)).2, p ∉ n)
  | [], rs, _, hnd => by
    refine ⟨⟨rs, rfl, hnd⟩, by simp [runCycles], by simp [runCycles], by simp [runCycles]⟩
  | (r, now) :: rest, rs, hs, hnd => by
    have hstep := runCycle_state r now rs
    set n₀ := (runCycle r now (.good rs)).2 with hn₀
    set rs₁ := rs ++ recs_of now n₀ with hrs₁
    have hpairs₁ : get_last_symbols (.good rs₁) = get_last_symbols (.good rs) ++ n₀ :=
      get_last_symbols_recs_of rs now n₀
    have hnew : ∀ p ∈ n₀, p ∉ get_last_symbols (.good rs) :=
      runCycle_notified_new r now rs
    have hn₀nd : n₀.Nodup := runCycle_notified_nodup r now rs (hs (r, now) (by simp))
    have hnd₁ : (get_last_symbols (.good rs₁)).Nodup := by
      rw [hpairs₁, List.nodup_append]
      exact ⟨hnd, hn₀nd, fun p hp hq => hnew p hq hp⟩
    have ih := runCycles_invariant rest rs₁ (fun inp hinp => hs inp (by simp [hinp])) hnd₁
    have hrun : runCycles ((r, now) :: rest) (.good rs) =
        ((runCycles rest (.good rs₁)).1, n₀ :: (runCycles rest (.good rs₁)).2) := by
      simp only [runCycles]
      rw [show runCycle r now (.good rs) = (.good rs₁, n₀) from Prod.ext hstep rfl]
    obtain ⟨⟨rsF, hF, hFnd⟩, hpw, hall, hstable⟩ := ih
    rw [hrun]
    refine ⟨⟨rsF, hF, hFnd⟩, ?_, ?_, ?_⟩
    · refine List.pairwise_cons.mpr ⟨?_, hpw⟩
      intro m hm p hp
      exact hstable p (by rw [hpairs₁]; exact List.mem_append_right _ hp) m hm
    · intro m hm
      rcases List.mem_cons.mp hm with rfl | hm'
      · exact hn₀nd
      · exact hall m hm'
    · intro p hp m hm
      rcases List.mem_cons.mp hm with rfl | hm'
      · exact fun hin => hnew p hin hp
      · exact hstable p (by rw [hpairs₁]; exact List.mem_append_left _ hp) m hm'

/-! ## Claim theorems -/

/-- C1, counterexample: with the same raw symbol twice in one Binance
result, one cycle from an empty store notifies the pair `(Binance,
AAAUSDT)` twice and appends two Observations for it — duplicates are not
no-ops and the log does not keep at most one Observation per pair. -/
theorem c1_counterexample :
    (runCycle
        { binance := .ok [⟨"AAAUSDT", "PERPETUAL", "USDT"⟩, ⟨"AAAUSDT", "PERPETUAL", "USDT"⟩],
          bybit := .ok [], okx := .ok [], upbit := .ok [] }
        "2025-01-01 00:00:00" (.good [])).2
      = [("Binance", "AAAUSDT"), ("Binance", "AAAUSDT")] ∧
    load_records (runCycle
        { binance := .ok [⟨"AAAUSDT", "PERPETUAL", "USDT"⟩, ⟨"AAAUSDT", "PERPETUAL", "USDT"⟩],
          bybit := .ok [], okx := .ok [], upbit := .ok [] }
        "2025-01-01 00:00:00" (.good [])).1
      = [⟨"Binance", "AAAUSDT", "2025-01-01 00:00:00"⟩,
         ⟨"Binance", "AAAUSDT", "2025-01-01 00:00:00"⟩] ∧
    ¬ (get_last_symbols (runCycle
        { binance := .ok [⟨"AAAUSDT", "PERPETUAL", "USDT"⟩, ⟨"AAAUSDT", "PERPETUAL", "USDT"⟩],
          bybit := .ok [], okx := .ok [], upbit := .ok [] }
        "2025-01-01 00:00:00" (.good [])).1).Nodup := by decide

/-- C1 (amended): starting from a readable store with distinct known
pairs, and provided no adapter's result repeats a raw symbol within a
cycle, every `(source, symbol)` pair is notified on at most one cycle of
any sequence, at most once within that cycle, and the record log keeps at
most one Observation per pair throughout.  (The duplicate-free proviso is
forced by the counterexample: an in-cycle duplicate is appended and
notified once per occurrence because `last_symbols` is read once per
cycle.) -/
theorem c1_pair_notified_at_most_once (inputs : List (Responses × String)) (rs : List Record)
    (hstore : (get_last_symbols (.good rs)).Nodup)
    (hsnap : ∀ inp ∈ inputs, snapshot_dup_free inp.1) :
    ((runCycles inputs (.good rs)).2.Pairwise (fun n₁ n₂ => ∀ p ∈ n₁, p ∉ n₂)) ∧
    (∀ n ∈ (runCycles inputs (.good rs)).2, n.Nodup) ∧
    (∃ rsF, (runCycles inputs (.good rs)).1 = .good rsF ∧
      (get_last_symbols (.good rsF)).Nodup) := by
  obtain ⟨hA, hB, hC, _⟩ := runCycles_invariant inputs rs hsnap hstore
  exact ⟨hB, hC, hA⟩

theorem c1_witness :
    ((get_last_symbols (.good [])).Nodup ∧
      (∀ inp ∈ ([({ binance := .ok [⟨"BTCUSDT", "PERPETUAL", "USDT"⟩],
                     bybit := .ok [], okx := .ok [], upbit := .ok [] },
                   "2025-01-01 00:00:00"),
                  ({ binance := .ok [⟨"BTCUSDT", "PERPETUAL", "USDT"⟩],
                     bybit := .ok [], okx := .ok [], upbit := .ok [] },
                   "2025-01-01 00:03:00")] : List (Responses × String)),
        snapshot_dup_free inp.1)) ∧
    (((runCycles
        [({ binance := .ok [⟨"BTCUSDT", "PERPETUAL", "USDT"⟩],
            bybit := .ok [], okx := .ok [], upbit := .ok [] }, "2025-01-01 00:00:00"),
         ({ binance := .ok [⟨"BTCUSDT", "PERPETUAL", "USDT"⟩],
            bybit := .ok [], okx := .ok [], upbit := .ok [] }, "2025-01-01 00:03:00")]
        (.good [])).2.Pairwise (fun n₁ n₂ => ∀ p ∈ n₁, p ∉ n₂)) ∧
      (∀ n ∈ (runCycles
        [({ binance := .ok [⟨"BTCUSDT", "PERPETUAL", "USDT"⟩],
            bybit := .ok [], okx := .ok [], upbit := .ok [] }, "2025-01-01 00:00:00"),
         ({ binance := .ok [⟨"BTCUSDT", "PERPETUAL", "USDT"⟩],
            bybit := .ok [], okx := .ok [], upbit := .ok [] }, "2025-01-01 00:03:00")]
        (.good [])).2, n.Nodup) ∧
      (∃ rsF, (runCycles
        [({ binance := .ok [⟨"BTCUSDT", "PERPETUAL", "USDT"⟩],
            bybit := .ok [], okx := .ok [], upbit := .ok [] }, "2025-01-01 00:00:00"),
         ({ binance := .ok [⟨"BTCUSDT", "PERPETUAL", "USDT"⟩],
            bybit := .ok [], okx := .ok [], upbit := .ok [] }, "2025-01-01 00:03:00")]
        (.good [])).1 = .good rsF ∧ (get_last_symbols (.good rsF)).Nodup)) :=
  ⟨⟨by decide, by decide⟩, c1_pair_notified_at_most_once _ [] (by decide) (by decide)⟩

/-- C2, counterexample: a transport failure in the Binance adapter is not
caught — `fetch_binance` propagates the exception instead of returning an
empty set, and the whole cycle aborts before any other source is diffed. -/
theorem c2_counterexample :
    fetch_binance (.error ()) = .error () ∧
    (Except.error () : Except Unit (List String)) ≠ .ok [] ∧
    check_all { binance := .error (), bybit := .ok [], okx := .ok [], upbit := .ok [] }
      (.good []) "2025-01-01 00:00:00" = .error () := by
  refine ⟨rfl, ?_, rfl⟩
  intro h
  exact Except.noConfusion h

/-- C2 (amended): only the OKX adapter catches a fetch failure and yields
an empty result (equivalent, for the rest of the cycle, to OKX listing
nothing); a failure in the Binance, Bybit or Upbit adapter propagates and
aborts the whole cycle, so the other sources are not diffed. -/
theorem c2_only_okx_failure_isolated (lb : List BinanceInfo) (ly : List BybitInfo)
    (lu : List UpbitInfo) (st : FileState) (now : String) :
    fetch_okx (.error ()) = [] ∧
    check_all { binance := .ok lb, bybit := .ok ly, okx := .error (), upbit := .ok lu } st now
      = check_all { binance := .ok lb, bybit := .ok ly, okx := .ok [], upbit := .ok lu } st now ∧
    (∀ (ry : Except Unit (List BybitInfo)) (ro : Except Unit (List OkxInfo))
        (ru : Except Unit (List UpbitInfo)),
      check_all { binance := .error (), bybit := ry, okx := ro, upbit := ru } st now
        = .error ()) ∧
    (∀ (ro : Except Unit (List OkxInfo)) (ru : Except Unit (List UpbitInfo)),
      check_all { binance := .ok lb, bybit := .error (), okx := ro, upbit := ru } st now
        = .error ()) ∧
    (∀ (ro : Except Unit (List OkxInfo)),
      check_all { binance := .ok lb, bybit := .ok ly, okx := ro, upbit := .error () } st now
        = .error ()) := by
  refine ⟨rfl, rfl, fun ry ro ru => rfl, fun ro ru => rfl, fun ro => rfl⟩

theorem c2_witness :
    fetch_okx (.error ()) = [] ∧
    check_all { binance := .ok [⟨"BTCUSDT", "PERPETUAL", "USDT"⟩], bybit := .ok [],
                okx := .error (), upbit := .ok [] } (.good []) "2025-01-01 00:00:00"
      = check_all { binance := .ok [⟨"BTCUSDT", "PERPETUAL", "USDT"⟩], bybit := .ok [],
                    okx := .ok [], upbit := .ok [] } (.good []) "2025-01-01 00:00:00" ∧
    (∀ (ry : Except Unit (List BybitInfo)) (ro : Except Unit (List OkxInfo))
        (ru : Except Unit (List UpbitInfo)),
      check_all { binance := .error (), bybit := ry, okx := ro, upbit := ru }
        (.good []) "2025-01-01 00:00:00" = .error ()) ∧
    (∀ (ro : Except Unit (List OkxInfo)) (ru : Except Unit (List UpbitInfo)),
      check_all { binance := .ok [⟨"BTCUSDT", "PERPETUAL", "USDT"⟩], bybit := .error (),
                  okx := ro, upbit := ru } (.good []) "2025-01-01 00:00:00" = .error ()) ∧
    (∀ (ro : Except Unit (List OkxInfo)),
      check_all { binance := .ok [⟨"BTCUSDT", "PERPETUAL", "USDT"⟩], bybit := .ok [],
                  okx := ro, upbit := .error () } (.good []) "2025-01-01 00:00:00" = .error ()) :=
  c2_only_okx_failure_isolated [⟨"BTCUSDT", "PERPETUAL", "USDT"⟩] [] [] (.good [])
    "2025-01-01 00:00:00"

/-- C3: when the record file exists (even unreadable) the bootstrap
changes nothing and notifies nothing; when it does not exist and the fetch
phase succeeds, the bootstrap saves one Observation per symbol listed on
every source, stamped with the bootstrap wall-clock time, and sends zero
notifications regardless of how many symbols are present. -/
theorem c3_bootstrap_silent :
    (∀ (r : Responses) (st : FileState) (now : String), st ≠ .missing →
        initialize_record_file r st now = .ok (st, [])) ∧
    (∀ (r : Responses) (now : String) (es : List (String × List String)),
        fetch_entries r = .ok es →
        ∃ recs, initialize_record_file r .missing now = .ok (.good recs, []) ∧
          (∀ e ∈ es, ∀ sym ∈ e.2, (⟨e.1, sym, now⟩ : Record) ∈ recs) ∧
          ∀ rec ∈ recs, rec.timestamp = now) := by
  constructor
  · intro r st now h
    cases st with
    | missing => exact absurd rfl h
    | corrupt => rfl
    | good rs => rfl
  · intro r now es h
    refine ⟨es.flatMap (fun e => e.2.map (fun sym => ⟨e.1, sym, now⟩)), ?_, ?_, ?_⟩
    · simp [initialize_record_file, h, Except.map, save_records]
    · intro e he sym hsym
      simp only [List.mem_flatMap, List.mem_map]
      exact ⟨e, he, sym, hsym, rfl⟩
    · intro rec hrec
      simp only [List.mem_flatMap, List.mem_map] at hrec
      obtain ⟨e, _, sym, _, rfl⟩ := hrec
      rfl

theorem c3_witness :
    ((FileState.good [⟨"Binance", "BTCUSDT", "2025-01-01 00:00:00"⟩]) ≠ .missing ∧
      initialize_record_file
        { binance := .ok [], bybit := .ok [], okx := .ok [], upbit := .ok [] }
        (.good [⟨"Binance", "BTCUSDT", "2025-01-01 00:00:00"⟩]) "2025-01-02 00:00:00"
        = .ok (.good [⟨"Binance", "BTCUSDT", "2025-01-01 00:00:00"⟩], [])) ∧
    (fetch_entries
        { binance := .ok [⟨"BTCUSDT", "PERPETUAL", "USDT"⟩], bybit := .ok [],
          okx := .ok [], upbit := .ok [⟨"KRW-BTC"⟩] }
        = .ok [("Binance", ["BTCUSDT"]), ("Bybit", []), ("OKX", []), ("Upbit", ["KRW-BTC"])] ∧
      ∃ recs, initialize_record_file
          { binance := .ok [⟨"BTCUSDT", "PERPETUAL", "USDT"⟩], bybit := .ok [],
            okx := .ok [], upbit := .ok [⟨"KRW-BTC"⟩] }
          .missing "2025-01-01 00:00:00" = .ok (.good recs, []) ∧
        (∀ e ∈ [("Binance", ["BTCUSDT"]), ("Bybit", []), ("OKX", []), ("Upbit", ["KRW-BTC"])],
          ∀ sym ∈ e.2, (⟨e.1, sym, "2025-01-01 00:00:00"⟩ : Record) ∈ recs) ∧
        ∀ rec ∈ recs, rec.timestamp = "2025-01-01 00:00:00") :=
  ⟨⟨by decide, c3_bootstrap_silent.1 _ _ _ (by decide)⟩,
   ⟨rfl, c3_bootstrap_silent.2 _ _ _ rfl⟩⟩

/-- C4: on a readable store, any diff cycle (including one aborted by a
fetch failure) only extends the record list — the old records stay, in
place and unchanged, as a prefix, so the known-pairs set after the cycle
contains the known-pairs set before it. -/
theorem c4_store_monotone (r : Responses) (now : String) (rs : List Record) :
    (∀ p ∈ get_last_symbols (.good rs), p ∈ get_last_symbols (runCycle r now (.good rs)).1) ∧
    ∃ extra, load_records (runCycle r now (.good rs)).1 = rs ++ extra := by
  have h := runCycle_state r now rs
  constructor
  · intro p hp
    rw [h, get_last_symbols_recs_of]
    exact List.mem_append_left _ hp
  · exact ⟨recs_of now (runCycle r now (.good rs)).2, by rw [h]; rfl⟩

theorem c4_witness :
    (∀ p ∈ get_last_symbols (.good [⟨"Bybit", "ETHUSDT", "2024-12-31 00:00:00"⟩]),
      p ∈ get_last_symbols (runCycle
        { binance := .ok [⟨"BTCUSDT", "PERPETUAL", "USDT"⟩], bybit := .ok [],
          okx := .ok [], upbit := .ok [] }
        "2025-01-01 00:00:00" (.good [⟨"Bybit", "ETHUSDT", "2024-12-31 00:00:00"⟩])).1) ∧
    ∃ extra, load_records (runCycle
        { binance := .ok [⟨"BTCUSDT", "PERPETUAL", "USDT"⟩], bybit := .ok [],
          okx := .ok [], upbit := .ok [] }
        "2025-01-01 00:00:00" (.good [⟨"Bybit", "ETHUSDT", "2024-12-31 00:00:00"⟩])).1
      = [⟨"Bybit", "ETHUSDT", "2024-12-31 00:00:00"⟩] ++ extra :=
  c4_store_monotone _ "2025-01-01 00:00:00" [⟨"Bybit", "ETHUSDT", "2024-12-31 00:00:00"⟩]

/-- C5, counterexample: `clean_symbol` is not idempotent.  On
`"BTC-SWAPUSDT"` the single pass strips only `"USDT"` (the `"-SWAP"` test
ran before that strip), leaving `"BTC-SWAP"`, which a second application
reduces further to `"BTC"`. -/
theorem c5_counterexample :
    clean_symbol (clean_symbol "BTC-SWAPUSDT") ≠ clean_symbol "BTC-SWAPUSDT" := by decide

/-- C5 (amended): the stated equations hold —
`clean_symbol "KRW-BTC" = clean_symbol "BTC"` and
`clean_symbol "BTCUSDT" = clean_symbol "BTC-USDT" = "BTC"` — and double
application agrees with single application on each of these example
inputs, but `clean_symbol` is not idempotent on all inputs. -/
theorem c5_normalizer_equations :
    clean_symbol "KRW-BTC" = clean_symbol "BTC" ∧
    clean_symbol "BTCUSDT" = clean_symbol "BTC-USDT" ∧
    clean_symbol "BTC-USDT" = "BTC" ∧
    clean_symbol (clean_symbol "KRW-BTC") = clean_symbol "KRW-BTC" ∧
    clean_symbol (clean_symbol "BTC") = clean_symbol "BTC" ∧
    clean_symbol (clean_symbol "BTCUSDT") = clean_symbol "BTCUSDT" ∧
    clean_symbol (clean_symbol "BTC-USDT") = clean_symbol "BTC-USDT" ∧
    ¬ (∀ s : String, clean_symbol (clean_symbol s) = clean_symbol s) := by
  refine ⟨by decide, by decide, by decide, by decide, by decide, by decide, by decide, ?_⟩
  intro h
  exact absurd (h "BTC-SWAPUSDT") (by decide)

/-- C6, counterexample: the code does not strip exactly one suffix from
the end.  On `"BTC-SWAP-USDT"` it strips `"-USDT"` and then also
`"-SWAP"`; on `"AUSDTBUSDT"` the global `str.replace` also removes a
`"USDT"` occurrence that is not at the end of the string. -/
theorem c6_counterexample :
    clean_symbol "BTC-SWAP-USDT" = "BTC" ∧
    strip_one_suffix_spec "BTC-SWAP-USDT" = "BTC-SWAP" ∧
    clean_symbol "BTC-SWAP-USDT" ≠ strip_one_suffix_spec "BTC-SWAP-USDT" ∧
    clean_symbol "AUSDTBUSDT" = "AB" ∧
    strip_one_suffix_spec "AUSDTBUSDT" = "AUSDTB" ∧
    clean_symbol "AUSDTBUSDT" ≠ strip_one_suffix_spec "AUSDTBUSDT" := by decide

/-- C6 (amended): an input matching neither the `"KRW-"` test nor any of
the three suffix tests passes through unchanged (where the code and the
spec's one-suffix rule agree); when a suffix test matches, the code removes
every occurrence of each matching suffix in list order — possibly several
suffixes per call, and occurrences not at the end of the string. -/
theorem c6_unmatched_pass_through (s : String)
    (h1 : pyStartsWith s "KRW-" = false) (h2 : pyEndsWith s "-USDT" = false)
    (h3 : pyEndsWith s "-SWAP" = false) (h4 : pyEndsWith s "USDT" = false) :
    clean_symbol s = s ∧ strip_one_suffix_spec s = s := by
  constructor
  · simp [clean_symbol, h1, h2, h3, h4]
  · simp [strip_one_suffix_spec, h1, h2, h3, h4]

theorem c6_witness :
    (pyStartsWith "ETH-BTC" "KRW-" = false ∧ pyEndsWith "ETH-BTC" "-USDT" = false ∧
      pyEndsWith "ETH-BTC" "-SWAP" = false ∧ pyEndsWith "ETH-BTC" "USDT" = false) ∧
    (clean_symbol "ETH-BTC" = "ETH-BTC" ∧ strip_one_suffix_spec "ETH-BTC" = "ETH-BTC") :=
  ⟨⟨by decide, by decide, by decide, by decide⟩,
   c6_unmatched_pass_through "ETH-BTC" (by decide) (by decide) (by decide) (by decide)⟩

/-- C7, counterexample: the OKX adapter does not return the identifier
exactly as the exchange reports it — it strips `"-SWAP"` from the `instId`
before returning, so the raw `"BTC-USDT-SWAP"` comes back transformed. -/
theorem c7_counterexample :
    fetch_okx (.ok [⟨"BTC-USDT-SWAP", some "USDT"⟩]) = ["BTC-USDT"] ∧
    ("BTC-USDT" : String) ≠ "BTC-USDT-SWAP" := by decide

/-- C7 (amended): the Binance, Bybit and Upbit adapters return identifiers
taken verbatim from the response (`symbol` / `market` fields); the OKX
adapter instead returns each kept `instId` with its `"-SWAP"` occurrences
removed; and the diff cycle stores whatever string the adapter returned,
unchanged — every record a cycle adds to a readable store carries a symbol
from one of the four adapter result lists. -/
theorem c7_adapter_outputs_stored_verbatim :
    (∀ (data : List BinanceInfo) (l : List String), fetch_binance (.ok data) = .ok l →
        ∀ sym ∈ l, ∃ e ∈ data, sym = e.symbol) ∧
    (∀ (data : List BybitInfo) (l : List String), fetch_bybit (.ok data) = .ok l →
        ∀ sym ∈ l, ∃ e ∈ data, sym = e.symbol) ∧
    (∀ (data : List UpbitInfo) (l : List String), fetch_upbit (.ok data) = .ok l →
        ∀ sym ∈ l, ∃ e ∈ data, sym = e.market) ∧
    (∀ (data : List OkxInfo), ∀ sym ∈ fetch_okx (.ok data),
        ∃ e ∈ data, sym = pyReplace e.instId "-SWAP" "") ∧
    (∀ (r : Responses) (now : String) (rs : List Record),
        ∀ rec ∈ load_records (runCycle r now (.good rs)).1,
          rec ∈ rs ∨ rec.symbol ∈
            okd (fetch_binance r.binance) ++ okd (fetch_bybit r.bybit) ++
              fetch_okx r.okx ++ okd (fetch_upbit r.upbit)) := by
  refine ⟨?_, ?_, ?_, ?_, ?_⟩
  · intro data l h sym hsym
    rw [fetch_binance, Except.map] at h
    rw [← Except.ok.inj h] at hsym
    simp only [List.mem_map, List.mem_filter] at hsym
    obtain ⟨e, ⟨he, _⟩, rfl⟩ := hsym
    exact ⟨e, he, rfl⟩
  · intro data l h sym hsym
    rw [fetch_bybit, Except.map] at h
    rw [← Except.ok.inj h] at hsym
    simp only [List.mem_map, List.mem_filter] at hsym
    obtain ⟨e, ⟨he, _⟩, rfl⟩ := hsym
    exact ⟨e, he, rfl⟩
  · intro data l h sym hsym
    rw [fetch_upbit, Except.map] at h
    rw [← Except.ok.inj h] at hsym
    simp only [List.mem_map, List.mem_filter] at hsym
    obtain ⟨e, ⟨he, _⟩, rfl⟩ := hsym
    exact ⟨e, he, rfl⟩
  · intro data sym hsym
    simp only [fetch_okx, List.mem_map, List.mem_filter] at hsym
    obtain ⟨e, ⟨he, _⟩, rfl⟩ := hsym
    exact ⟨e, he, rfl⟩
  · intro r now rs rec hrec
    cases h : fetch_entries r with
    | error u =>
      rw [runCycle_err r now _ u h] at hrec
      exact Or.inl hrec
    | ok es =>
      rw [runCycle_ok r now rs es h] at hrec
      rcases List.mem_append.mp hrec with hold | hnew
      · exact Or.inl hold
      · right
        simp only [recs_of, List.mem_map] at hnew
        obtain ⟨p, hp, rfl⟩ := hnew
        obtain ⟨-, e, he, hfst, hsnd⟩ := new_pairs_source _ es p hp
        obtain ⟨b, y, u, hb, hy, hu, rfl⟩ := fetch_entries_ok r es h
        simp only [List.mem_cons, List.not_mem_nil, or_false] at he
        rw [okd, hb, okd, hy, okd, hu]
        simp only [List.mem_append]
        rcases he with rfl | rfl | rfl | rfl
        · exact Or.inl (Or.inl (Or.inl hsnd))
        · exact Or.inl (Or.inl (Or.inr hsnd))
        · exact Or.inl (Or.inr hsnd)
        · exact Or.inr hsnd

theorem c7_witness :
    (fetch_binance (.ok [⟨"BTCUSDT", "PERPETUAL", "USDT"⟩]) = .ok ["BTCUSDT"] →
      ∀ sym ∈ ["BTCUSDT"], ∃ e ∈ [(⟨"BTCUSDT", "PERPETUAL", "USDT"⟩ : BinanceInfo)],
        sym = e.symbol) ∧
    (∀ rec ∈ load_records (runCycle
        { binance := .ok [⟨"BTCUSDT", "PERPETUAL", "USDT"⟩], bybit := .ok [],
          okx := .ok [⟨"BTC-USDT-SWAP", some "USDT"⟩], upbit := .ok [] }
        "2025-01-01 00:00:00" (.good [])).1,
      rec ∈ ([] : List Record) ∨ rec.symbol ∈
        okd (fetch_binance (.ok [⟨"BTCUSDT", "PERPETUAL", "USDT"⟩])) ++
          okd (fetch_bybit (.ok [])) ++
          fetch_okx (.ok [⟨"BTC-USDT-SWAP", some "USDT"⟩]) ++ okd (fetch_upbit (.ok []))) :=
  ⟨fun h => c7_adapter_outputs_stored_verbatim.1 _ _ h,
   c7_adapter_outputs_stored_verbatim.2.2.2.2
     { binance := .ok [⟨"BTCUSDT", "PERPETUAL", "USDT"⟩], bybit := .ok [],
       okx := .ok [⟨"BTC-USDT-SWAP", some "USDT"⟩], upbit := .ok [] }
     "2025-01-01 00:00:00" []⟩

/-- C10: when reading the record file raises, `load_records` returns the
empty list, so the next `append_record` saves a file holding only the one
new Observation — every previously persisted Observation is replaced. -/
theorem c10_corrupt_read_resets_log :
    load_records .corrupt = [] ∧
    ∀ (source symbol now : String),
      append_record .corrupt source symbol now = .good [⟨source, symbol, now⟩] :=
  ⟨rfl, fun _ _ _ => rfl⟩

theorem c10_witness :
    append_record .corrupt "Binance" "BTCUSDT" "2025-01-01 00:00:00"
      = .good [⟨"Binance", "BTCUSDT", "2025-01-01 00:00:00"⟩] :=
  c10_corrupt_read_resets_log.2 "Binance" "BTCUSDT" "2025-01-01 00:00:00"

/-- C8, counterexample: `/showrecord` renders `records[-5:]` in list
order, which is oldest-first among the last five appended Observations,
not newest-first as the spec's `recentLog(n)` requires: on a six-record
store the first rendered line is the second-oldest record, while the
newest-first view starts with the newest. -/
theorem c8_counterexample :
    show_record_lines
        [⟨"Binance", "S1", "2025-01-01 00:00:01"⟩, ⟨"Binance", "S2", "2025-01-01 00:00:02"⟩,
         ⟨"Binance", "S3", "2025-01-01 00:00:03"⟩, ⟨"Binance", "S4", "2025-01-01 00:00:04"⟩,
         ⟨"Binance", "S5", "2025-01-01 00:00:05"⟩, ⟨"Binance", "S6", "2025-01-01 00:00:06"⟩]
      = ["2025-01-01 00:00:02 - Binance - S2", "2025-01-01 00:00:03 - Binance - S3",
         "2025-01-01 00:00:04 - Binance - S4", "2025-01-01 00:00:05 - Binance - S5",
         "2025-01-01 00:00:06 - Binance - S6"] ∧
    recentLog_spec
        [⟨"Binance", "S1", "2025-01-01 00:00:01"⟩, ⟨"Binance", "S2", "2025-01-01 00:00:02"⟩,
         ⟨"Binance", "S3", "2025-01-01 00:00:03"⟩, ⟨"Binance", "S4", "2025-01-01 00:00:04"⟩,
         ⟨"Binance", "S5", "2025-01-01 00:00:05"⟩, ⟨"Binance", "S6", "2025-01-01 00:00:06"⟩] 5
      = ["2025-01-01 00:00:06 - Binance - S6", "2025-01-01 00:00:05 - Binance - S5",
         "2025-01-01 00:00:04 - Binance - S4", "2025-01-01 00:00:03 - Binance - S3",
         "2025-01-01 00:00:02 - Binance - S2"] ∧
    show_record_lines
        [⟨"Binance", "S1", "2025-01-01 00:00:01"⟩, ⟨"Binance", "S2", "2025-01-01 00:00:02"⟩,
         ⟨"Binance", "S3", "2025-01-01 00:00:03"⟩, ⟨"Binance", "S4", "2025-01-01 00:00:04"⟩,
         ⟨"Binance", "S5", "2025-01-01 00:00:05"⟩, ⟨"Binance", "S6", "2025-01-01 00:00:06"⟩]
      ≠ recentLog_spec
        [⟨"Binance", "S1", "2025-01-01 00:00:01"⟩, ⟨"Binance", "S2", "2025-01-01 00:00:02"⟩,
         ⟨"Binance", "S3", "2025-01-01 00:00:03"⟩, ⟨"Binance", "S4", "2025-01-01 00:00:04"⟩,
         ⟨"Binance", "S5", "2025-01-01 00:00:05"⟩, ⟨"Binance", "S6", "2025-01-01 00:00:06"⟩] 5 := by
  decide

/-- C8 (amended): for every store state, `/showrecord` renders exactly the
5 most-recently-appended Observations, each as
`"{timestamp} - {source} - {symbol}"` with the raw symbol, but ordered
oldest-first among those five (append order), not newest-first. -/
theorem c8_last_five_in_append_order (records : List Record) :
    show_record_lines records = ((records.reverse.take 5).reverse).map record_line := by
  unfold show_record_lines
  rw [List.take_reverse, List.reverse_reverse]

theorem c8_witness :
    show_record_lines [⟨"Upbit", "KRW-BTC", "2025-01-01 00:00:01"⟩]
      = (([⟨"Upbit", "KRW-BTC", "2025-01-01 00:00:01"⟩] : List Record).reverse.take 5).reverse.map
          record_line :=
  c8_last_five_in_append_order [⟨"Upbit", "KRW-BTC", "2025-01-01 00:00:01"⟩]

/-! ## Properties of the `/check` view -/

theorem strLe_total : ∀ as bs : List Char, strLe as bs = true ∨ strLe bs as = true
  | [], _ => Or.inl rfl
  | _ :: _, [] => Or.inr rfl
  | a :: as, b :: bs => by
    by_cases h : a.toNat = b.toNat
    · rcases strLe_total as bs with h1 | h1
      · exact Or.inl (by simp [strLe, h, h1])
      · exact Or.inr (by simp [strLe, h.symm, h1])
    · rcases Nat.lt_or_ge a.toNat b.toNat with hlt | hge
      · exact Or.inl (by simp [strLe, h, hlt])
      · have hba : b.toNat < a.toNat := by omega
        have hne : b.toNat ≠ a.toNat := by omega
        exact Or.inr (by simp [strLe, hne, hba])

theorem strLe_trans : ∀ as bs cs : List Char,
    strLe as bs = true → strLe bs cs = true → strLe as cs = true
  | [], _, _, _, _ => rfl
  | _ :: _, [], _, h1, _ => by simp [strLe] at h1
  | _ :: _, _ :: _, [], _, h2 => by simp [strLe] at h2
  | a :: as, b :: bs, c :: cs, h1, h2 => by
    simp only [strLe] at h1 h2 ⊢
    by_cases hab : a.toNat = b.toNat
    · by_cases hbc : b.toNat = c.toNat
      · rw [if_pos hab] at h1
        rw [if_pos hbc] at h2
        rw [if_pos (hab.trans hbc)]
        exact strLe_trans as bs cs h1 h2
      · rw [if_pos hab] at h1
        rw [if_neg hbc] at h2
        have h2' : b.toNat < c.toNat := by simpa using h2
        have hac : a.toNat ≠ c.toNat := by omega
        rw [if_neg hac]
        simpa using by omega
    · rw [if_neg hab] at h1
      have h1' : a.toNat < b.toNat := by simpa using h1
      by_cases hbc : b.toNat = c.toNat
      · have hac : a.toNat ≠ c.toNat := by omega
        rw [if_neg hac]
        simpa using by omega
      · rw [if_neg hbc] at h2
        have h2' : b.toNat < c.toNat := by simpa using h2
        have hac : a.toNat ≠ c.toNat := by omega
        rw [if_neg hac]
        simpa using by omega

/-- The stable descending sort really is sorted newest-first by
timestamp. -/
theorem sortedRecs_sorted (records : List Record) :
    (sortedRecs records).Pairwise (fun a b => pyStrLe b.timestamp a.timestamp = true) := by
  haveI : IsTotal Record (fun a b => pyStrLe b.timestamp a.timestamp = true) :=
    ⟨fun a b => strLe_total b.timestamp.data a.timestamp.data⟩
  haveI : IsTrans Record (fun a b => pyStrLe b.timestamp a.timestamp = true) :=
    ⟨fun _ _ _ h1 h2 => strLe_trans _ _ _ h2 h1⟩
  exact List.sorted_insertionSort _ records

/-- Dropping the `[]`-valued entries of a map does not change the
concatenation — the "omitted sources" law. -/
theorem flatten_map_keep_not_empty {α β : Type} (f : α → List β) :
    ∀ l : List α, (l.map f).flatten = ((l.filter (fun x => !(f x).isEmpty)).map f).flatten
  | [] => rfl
  | x :: l => by
    by_cases h : (f x).isEmpty
    · have hx : f x = [] := by simpa using h
      simp [List.filter_cons, h, hx, flatten_map_keep_not_empty f l]
    · simp [List.filter_cons, h, flatten_map_keep_not_empty f l]

/-- A section is empty exactly when its source's group is. -/
theorem section_for_isEmpty (fmt : String → String) (records : List Record) (s : String) :
    (section_for fmt records s).isEmpty = (group_for records s).isEmpty := by
  unfold section_for
  by_cases h : (group_for records s).isEmpty <;> simp [h]

/-- C9: the `/check` view groups Observations by source with each group
sorted newest-first by timestamp and capped at 10 entries drawn from the
store, renders entries through `clean_symbol` (see `entry_line` /
`section_for`), omits sources with an empty group from the output
entirely, and falls back to the single "no data" placeholder when no
source has any Observations — in particular on an empty store and when
the read of the record file fails. -/
theorem c9_per_source_view (fmt : String → String) (records : List Record) :
    (∀ s ∈ main_sources,
        (group_for records s).Pairwise (fun a b => pyStrLe b.timestamp a.timestamp = true) ∧
        (group_for records s).length ≤ 10 ∧
        (∀ rec ∈ group_for records s, rec ∈ records ∧ rec.source = s) ∧
        (group_for records s ≠ [] →
          section_for fmt records s
            = header_line s :: (group_for records s).map (entry_line fmt) ++ [""])) ∧
    check_output fmt records
      = ((main_sources.filter (fun s => !(group_for records s).isEmpty)).map
          (section_for fmt records)).flatten ∧
    ((∀ rec ∈ records, rec.source ∉ main_sources) → check_text fmt records = no_data_text) ∧
    check_text fmt (load_records .corrupt) = no_data_text := by
  refine ⟨?_, ?_, ?_, rfl⟩
  · intro s _
    refine ⟨?_, ?_, ?_, ?_⟩
    · exact List.Pairwise.sublist ((List.take_sublist _ _).trans (List.filter_sublist _))
        (sortedRecs_sorted records)
    · exact List.length_take_le _ _
    · intro rec hrec
      have h1 : rec ∈ (sortedRecs records).filter (fun r => decide (r.source = s)) :=
        List.take_subset _ _ hrec
      have h2 := List.mem_filter.mp h1
      exact ⟨(List.perm_insertionSort _ records).subset h2.1, by simpa using h2.2⟩
    · intro hne
      simp [section_for, hne]
  · have hfil : (main_sources.filter (fun s => !(section_for fmt records s).isEmpty))
        = (main_sources.filter (fun s => !(group_for records s).isEmpty)) :=
      List.filter_congr (fun x _ => by rw [section_for_isEmpty])
    rw [check_output, flatten_map_keep_not_empty (section_for fmt records) main_sources, hfil]
  · intro h
    have hgroup : ∀ s, s ∈ main_sources → group_for records s = [] := by
      intro s hs
      rw [group_for]
      have hf : (sortedRecs records).filter (fun r => decide (r.source = s)) = [] := by
        rw [List.filter_eq_nil]
        intro a ha
        simp only [decide_eq_true_eq]
        exact fun e => h a ((List.perm_insertionSort _ records).subset ha) (e ▸ hs)
      rw [hf]
      rfl
    have hsec : ∀ s ∈ main_sources, section_for fmt records s = [] := by
      intro s hs
      simp [section_for, hgroup s hs]
    have hout : check_output fmt records = [] := by
      simp only [check_output, main_sources, List.map_cons, List.map_nil]
      rw [hsec "Binance" (by simp [main_sources]), hsec "Bybit" (by simp [main_sources]),
        hsec "OKX" (by simp [main_sources]), hsec "Upbit" (by simp [main_sources])]
      rfl
    unfold check_text
    rw [hout]
    rfl

theorem c9_witness :
    (∀ s ∈ main_sources,
        (group_for [⟨"Binance", "BTCUSDT", "2025-01-01 00:00:00"⟩] s).Pairwise
          (fun a b => pyStrLe b.timestamp a.timestamp = true) ∧
        (group_for [⟨"Binance", "BTCUSDT", "2025-01-01 00:00:00"⟩] s).length ≤ 10 ∧
        (∀ rec ∈ group_for [⟨"Binance", "BTCUSDT", "2025-01-01 00:00:00"⟩] s,
          rec ∈ [(⟨"Binance", "BTCUSDT", "2025-01-01 00:00:00"⟩ : Record)] ∧ rec.source = s) ∧
        (group_for [⟨"Binance", "BTCUSDT", "2025-01-01 00:00:00"⟩] s ≠ [] →
          section_for (fun ts => ts) [⟨"Binance", "BTCUSDT", "2025-01-01 00:00:00"⟩] s
            = header_line s ::
                (group_for [⟨"Binance", "BTCUSDT", "2025-01-01 00:00:00"⟩] s).map
                  (entry_line (fun ts => ts)) ++ [""])) ∧
    check_output (fun ts => ts) [⟨"Binance", "BTCUSDT", "2025-01-01 00:00:00"⟩]
      = ((main_sources.filter
            (fun s => !(group_for [⟨"Binance", "BTCUSDT", "2025-01-01 00:00:00"⟩] s).isEmpty)).map
          (section_for (fun ts => ts) [⟨"Binance", "BTCUSDT", "2025-01-01 00:00:00"⟩])).flatten ∧
    ((∀ rec ∈ [(⟨"Binance", "BTCUSDT", "2025-01-01 00:00:00"⟩ : Record)],
        rec.source ∉ main_sources) →
      check_text (fun ts => ts) [⟨"Binance", "BTCUSDT", "2025-01-01 00:00:00"⟩] = no_data_text) ∧
    check_text (fun ts => ts) (load_records .corrupt) = no_data_text :=
  c9_per_source_view (fun ts => ts) [⟨"Binance", "BTCUSDT", "2025-01-01 00:00:00"⟩]
